import Mathlib

/-!
Shallow embedding of the slack-mcp server (`src/main.py`) and verification of
its specification claims.

Modelling conventions:
- Python dictionaries (which preserve insertion order) are modelled as
  association lists `List (String × α)`; lookup finds the first matching key.
- Python strings are modelled as Lean `String`; `str.lower()` is modelled by
  `pyLower` (the ASCII case map, equal to `String.toLower`).
- Reading the YAML config file is modelled by a value of type `Option Config`:
  `none` stands for a failed open/parse (the Python code catches the exception).
- The Slack `WebClient` network boundary is modelled by an oracle structure
  whose fields give the remote responses, together with an explicit trace of
  the API calls a function performs, returned alongside its result string.
-/

/-- A single-quote character as a string, used in the error messages of the
source (`Error: User 'x' not found in config`). -/
def squote : String := String.singleton (Char.ofNat 39)

/-- The user record stored in the config under `users` (see `_get_user_ids`
in `src/main.py`: fields `id`, `username`, `display_name`, `real_name`,
`first_name`). -/
structure UserRecord where
  id : String
  username : String
  display_name : String
  real_name : String
  first_name : String
deriving Repr, DecidableEq

/-- The YAML config file: `user_token`, `users` (name → record) and
`channels` (name → channel id), both insertion-ordered mappings. -/
structure Config where
  user_token : String
  users : List (String × UserRecord)
  channels : List (String × String)
deriving Repr, DecidableEq

/-- First-match lookup in an insertion-ordered mapping (Python `dict` access). -/
def listLookup {α : Type} (l : List (String × α)) (k : String) : Option α :=
  (l.find? (fun p => p.1 == k)).map (fun p => p.2)

/-- Python `str.lower()` (ASCII case mapping), written as a map over the
character list so that it reduces inside the kernel; it agrees with
`String.toLower` (see `pyLower_eq_toLower`). -/
def pyLower (s : String) : String :=
  ⟨s.data.map Char.toLower⟩

theorem pyLower_eq_toLower (s : String) : pyLower s = s.toLower :=
  (String.map_eq Char.toLower s).symm

/-- Does a stored user record match the (already lower-cased) query?  Mirrors
the four-field comparison chain in `_get_slack_user` (src/main.py:399-402). -/
def matchesName (u : UserRecord) (name_lower : String) : Bool :=
  pyLower u.username == name_lower ||
  pyLower u.display_name == name_lower ||
  pyLower u.real_name == name_lower ||
  pyLower u.first_name == name_lower

/-- The `for user_data in current_config["users"].values()` loop of
`_get_slack_user`: return the id of the first record any of whose name
fields matches, else `None`. -/
def findUser (name_lower : String) : List UserRecord → Option String
  | [] => none
  | u :: rest => if matchesName u name_lower then some u.id else findUser name_lower rest

/-- Embedding of `_get_slack_user` (src/main.py:376-408).  The `Option Config`
argument models the outcome of re-reading the config file: `none` is a failed
read/parse, in which case the `except` clause returns `None`. -/
def get_slack_user (cfg : Option Config) (name : String) : Option String :=
  match cfg with
  | none => none
  | some c => findUser (pyLower name) (c.users.map (fun p => p.2))

theorem char_toLower_idem (c : Char) : c.toLower.toLower = c.toLower := by
  have eval : ∀ d : Char, d.toLower =
      if d.toNat ≥ 65 ∧ d.toNat ≤ 90 then Char.ofNat (d.toNat + 32) else d :=
    fun d => rfl
  by_cases h : c.toNat ≥ 65 ∧ c.toNat ≤ 90
  · have hv : (c.toNat + 32).isValidChar := Or.inl (by omega)
    have ht : (Char.ofNat (c.toNat + 32)).toNat = c.toNat + 32 := by
      rw [Char.ofNat, dif_pos hv]; rfl
    rw [eval c, if_pos h, eval _, ht, if_neg (by omega)]
  · rw [eval c, if_neg h, eval c, if_neg h]

theorem pyLower_idem (s : String) : pyLower (pyLower s) = pyLower s := by
  simp [pyLower, List.map_map, Function.comp_def, char_toLower_idem]

/-- One observable interaction performed by a message-sending tool: a config
based name resolution (`_get_slack_user` call) or a Slack API network call. -/
inductive Effect where
  | resolveName (name : String)
  | postMessage (channel : String) (text : String)
  | openConversation (userIds : List String)
deriving Repr, DecidableEq

/-- Is the effect a network call to the Slack API (as opposed to a purely
local config lookup)? -/
def Effect.isNetworkCall : Effect → Bool
  | .resolveName _ => false
  | .postMessage _ _ => true
  | .openConversation _ => true

/-- Oracle for the Slack client network boundary of the message-sending
tools: `postMessage` models `chat_postMessage` (`.ok ()` for an `ok` response,
`.error code` for a failure carrying the platform error code) and `openConv`
models `conversations_open` (`.ok id` returns the group channel id). -/
structure Net where
  postMessage : String → String → Except String Unit
  openConv : List String → Except String String

/-- The user-id lookup loop of `send_message_to_user` (src/main.py:94-99):
resolve the names left to right, stopping at the first one that resolves to
`None`; the trace records one `resolveName` effect per `_get_slack_user`
call actually made. -/
def resolveUsers (cfg : Option Config) : List String → Except String (List String) × List Effect
  | [] => (.ok [], [])
  | n :: rest =>
    match get_slack_user cfg n with
    | none => (.error n, [.resolveName n])
    | some uid =>
      match resolveUsers cfg rest with
      | (.error m, tr) => (.error m, .resolveName n :: tr)
      | (.ok ids, tr) => (.ok (uid :: ids), .resolveName n :: tr)

/-- Embedding of the tool `send_message_to_user` (src/main.py:72-136).
`clientConfigured` models `client is not None`; `cfg` models the config file
contents seen by the `_get_slack_user` calls. -/
def send_message_to_user (clientConfigured : Bool) (cfg : Option Config) (net : Net)
    (user_names : List String) (message : String) : String × List Effect :=
  if !clientConfigured then
    ("Slack not configured. Please ask me to setup slack and provide your user token.", [])
  else if user_names.isEmpty then
    ("Error: At least one user name must be provided", [])
  else
    match resolveUsers cfg user_names with
    | (.error name, tr) =>
      ("Error: User " ++ squote ++ name ++ squote ++ " not found in config", tr)
    | (.ok user_ids, tr) =>
      if user_ids.length == 1 then
        let target := user_ids.headD ""
        match net.postMessage target message with
        | .ok _ =>
          ("Direct message sent successfully to " ++ user_names.headD "" ++ "!",
           tr ++ [.postMessage target message])
        | .error e =>
          ("Error: " ++ e, tr ++ [.postMessage target message])
      else
        match net.openConv user_ids with
        | .error e =>
          ("Error creating group conversation: " ++ e, tr ++ [.openConversation user_ids])
        | .ok group_channel_id =>
          match net.postMessage group_channel_id message with
          | .ok _ =>
            ("Group message sent successfully to " ++ String.intercalate ", " user_names ++ "!",
             tr ++ [.openConversation user_ids, .postMessage group_channel_id message])
          | .error e =>
            ("Error: " ++ e,
             tr ++ [.openConversation user_ids, .postMessage group_channel_id message])

/-- Can a mention name be used by `send_message_to_channel`?  The source
checks Python truthiness of the resolved id (`if user_id:` at
src/main.py:172), so both `None` and an empty-string id count as a failed
resolution. -/
def mentionResolvable (cfg : Config) (u : String) : Bool :=
  !((get_slack_user (some cfg) u).getD "").isEmpty

/-- The mention-building loop of `send_message_to_channel`
(src/main.py:168-175): resolve each name left to right into a `<@ID>` token,
stopping at the first name whose resolved id is falsy. -/
def resolveMentions (cfg : Config) : List String → Except String (List String) × List Effect
  | [] => (.ok [], [])
  | u :: rest =>
    let r := get_slack_user (some cfg) u
    if ((r.getD "").isEmpty) then (.error u, [.resolveName u])
    else
      match resolveMentions cfg rest with
      | (.error m, tr) => (.error m, .resolveName u :: tr)
      | (.ok ms, tr) => (.ok (("<@" ++ r.getD "" ++ ">") :: ms), .resolveName u :: tr)

/-- Embedding of the tool `send_message_to_channel` (src/main.py:138-195).
The `Config` argument models a successful re-read of the config file at the
top of the function; `users = []` plays the role of both `None` and an empty
mention list (both are falsy in the source's `if users:` tests). -/
def send_message_to_channel (clientConfigured : Bool) (cfg : Config) (net : Net)
    (channel_name : String) (message : String) (users : List String) : String × List Effect :=
  if !clientConfigured then
    ("Slack not configured. Please ask me to setup slack and provide your user token.", [])
  else
    let cn := pyLower channel_name
    match listLookup cfg.channels cn with
    | none => ("Error: Channel " ++ squote ++ cn ++ squote ++ " not found in config", [])
    | some channel_id =>
      match (if users.isEmpty then (.ok [], []) else resolveMentions cfg users) with
      | (Except.error u, tr) =>
        ("Error: User " ++ squote ++ u ++ squote ++ " not found in config", tr)
      | (Except.ok mentions, tr) =>
        let final_message :=
          if mentions.isEmpty then message
          else String.intercalate " " mentions ++ " " ++ message
        match net.postMessage channel_id final_message with
        | .ok _ =>
          let mentioned_users_str :=
            if users.isEmpty then ""
            else " (mentioning " ++ String.intercalate ", " users ++ ")"
          ("Message sent successfully to #" ++ cn ++ "!" ++ mentioned_users_str,
           tr ++ [.postMessage channel_id final_message])
        | .error e =>
          ("Error: " ++ e, tr ++ [.postMessage channel_id final_message])

/-- A workspace member as returned by the Slack `users_list` call, with the
fields `_get_user_ids` reads (src/main.py:472-491). -/
structure Member where
  is_bot : Bool
  deleted : Bool
  name : String
  id : String
  display_name : String
  real_name : String
  first_name : String
deriving Repr, DecidableEq

/-- Is the member kept by the sync filter (`not is_bot and not deleted`,
src/main.py:474)? -/
def memberEligible (m : Member) : Bool :=
  !m.is_bot && !m.deleted

/-- The user record `_get_user_ids` builds for a member (src/main.py:485-491). -/
def memberRecord (m : Member) : UserRecord :=
  { id := m.id, username := m.name, display_name := m.display_name,
    real_name := m.real_name, first_name := m.first_name }

/-- The merge loop of `_get_user_ids` (src/main.py:472-496): walk the members,
inserting a record under the lower-cased username key only when that key is
absent from the (evolving) mapping, counting insertions. -/
def syncUsersMerge (users : List (String × UserRecord)) (count : Nat) :
    List Member → List (String × UserRecord) × Nat
  | [] => (users, count)
  | m :: rest =>
    if memberEligible m then
      if (listLookup users (pyLower m.name)).isNone then
        syncUsersMerge (users ++ [(pyLower m.name, memberRecord m)]) (count + 1) rest
      else
        syncUsersMerge users count rest
    else
      syncUsersMerge users count rest

/-- A conversation as returned by `conversations_list`, with the fields
`_get_channel_ids` reads (src/main.py:429-433).  `is_member` defaults to
`True` in the source (`channel.get("is_member", True)`). -/
structure ChannelInfo where
  is_archived : Bool
  is_member : Bool
  name : String
  id : String
deriving Repr, DecidableEq

/-- Is the channel kept by the sync filter (`not is_archived and is_member`,
src/main.py:431)? -/
def channelEligible (c : ChannelInfo) : Bool :=
  !c.is_archived && c.is_member

/-- The merge loop of `_get_channel_ids` (src/main.py:429-439): insert
`name.lower() -> id` only when the key is absent, counting insertions. -/
def syncChannelsMerge (channels : List (String × String)) (count : Nat) :
    List ChannelInfo → List (String × String) × Nat
  | [] => (channels, count)
  | c :: rest =>
    if channelEligible c then
      if (listLookup channels (pyLower c.name)).isNone then
        syncChannelsMerge (channels ++ [(pyLower c.name, c.id)]) (count + 1) rest
      else
        syncChannelsMerge channels count rest
    else
      syncChannelsMerge channels count rest

/-- Embedding of the success path of `_get_user_ids` (src/main.py:452-503):
given the on-disk config and the upstream member listing, returns the result
string, the on-disk config after the call, and whether the file was written
(the source writes only when `new_users_added > 0`, src/main.py:498-501). -/
def get_user_ids (disk : Config) (members : List Member) : String × Config × Bool :=
  let merged := syncUsersMerge disk.users 0 members
  let newCfg : Config := { disk with users := merged.1 }
  ("Config updated! Added " ++ toString merged.2,
   if 0 < merged.2 then newCfg else disk,
   decide (0 < merged.2))

/-- Embedding of the success path of `_get_channel_ids` (src/main.py:410-445):
result string, on-disk config after the call, and whether the file was
written (only when `new_channels_added > 0`, src/main.py:441-444). -/
def get_channel_ids (disk : Config) (channels : List ChannelInfo) : String × Config × Bool :=
  let merged := syncChannelsMerge disk.channels 0 channels
  let newCfg : Config := { disk with channels := merged.1 }
  ("Config updated! Added " ++ toString merged.2,
   if 0 < merged.2 then newCfg else disk,
   decide (0 < merged.2))

/-- One Slack API call made by `update_slack_status`: a `users_profile_set`
(with the status text, emoji and optional absolute expiration actually sent)
or a `users_setPresence`. -/
inductive StatusCall where
  | profileSet (status_text : String) (status_emoji : String) (expiration : Option Int)
  | setPresence (value : String)
deriving Repr, DecidableEq

/-- Oracle for the network boundary of `update_slack_status`: `now` models
`int(time.time())`, and the two fields give the remote responses (`.ok ()`
for an `ok` response, `.error code` otherwise). -/
structure StatusNet where
  now : Nat
  profileSet : String → String → Option Int → Except String Unit
  setPresence : String → Except String Unit

/-- The gate of the status/profile sub-update
(`has_status_content or explicitly_clearing`, src/main.py:285-288).
Python truthiness of the string arguments is modelled by emptiness tests. -/
def statusGate (status_text status_emoji presence : String) (expiration_minutes : Int) : Bool :=
  (!(status_text == "") || !(status_emoji == "") || decide (0 < expiration_minutes)) ||
  (((status_text == "") || (status_emoji == "")) && !(presence == ""))

/-- The status/profile half of `update_slack_status` (src/main.py:283-339):
clamp the expiration, compute the absolute expiry, call `users_profile_set`,
and produce the confirmation (or failure) lines. -/
def statusUpdatePart (net : StatusNet) (status_text status_emoji presence : String)
    (expiration_minutes : Int) : List String × List StatusCall :=
  if statusGate status_text status_emoji presence expiration_minutes then
    let em := if 1440 < expiration_minutes then 1440 else expiration_minutes
    let expiration : Int := if 0 < em then (net.now : Int) + em * 60 else 0
    let status_expiration : Option Int := if 0 < expiration then some expiration else none
    let call := StatusCall.profileSet status_text status_emoji status_expiration
    match net.profileSet status_text status_emoji status_expiration with
    | .ok _ =>
      let status_parts :=
        (if !(status_emoji == "") then ["Emoji: " ++ status_emoji] else []) ++
        (if !(status_text == "") then ["Text: " ++ squote ++ status_text ++ squote] else [])
      if !status_parts.isEmpty then
        let status_description := String.intercalate " | " status_parts
        let expiration_text :=
          if 0 < em then
            if em < 60 then " (expires in " ++ toString em ++ " minutes)"
            else
              let hours := em / 60
              let minutes := em % 60
              if 0 < minutes then
                " (expires in " ++ toString hours ++ "h " ++ toString minutes ++ "m)"
              else
                " (expires in " ++ toString hours ++ " hours)"
          else ""
        (["✅ Status updated: " ++ status_description ++ expiration_text], [call])
      else
        (["✅ Status cleared"], [call])
    | .error e => (["❌ Status update failed: " ++ e], [call])
  else ([], [])

/-- The presence half of `update_slack_status` (src/main.py:341-363):
normalize the presence value case-insensitively and call `users_setPresence`,
or report a validation error for an unrecognized value. -/
def presenceUpdatePart (net : StatusNet) (presence : String) : List String × List StatusCall :=
  if !(presence == "") then
    if pyLower presence == "online" || pyLower presence == "auto" then
      match net.setPresence "auto" with
      | .ok _ => (["✅ Presence set to ONLINE - green dot visible"],
                  [StatusCall.setPresence "auto"])
      | .error e => (["❌ Presence update failed: " ++ e],
                     [StatusCall.setPresence "auto"])
    else if pyLower presence == "away" then
      match net.setPresence "away" with
      | .ok _ => (["✅ Presence set to AWAY (offline) - green dot hidden"],
                  [StatusCall.setPresence "away"])
      | .error e => (["❌ Presence update failed: " ++ e],
                     [StatusCall.setPresence "away"])
    else
      (["❌ Invalid presence " ++ squote ++ presence ++ squote ++ ". Use " ++
        squote ++ "online" ++ squote ++ " or " ++ squote ++ "away" ++ squote], [])
  else ([], [])

/-- Embedding of the tool `update_slack_status` (src/main.py:251-372),
returning the result string and the trace of API calls made.
`expiration_minutes` is a Python int, hence `Int`. -/
def update_slack_status (clientConfigured : Bool) (net : StatusNet)
    (status_text : String) (status_emoji : String) (presence : String)
    (expiration_minutes : Int) : String × List StatusCall :=
  if !clientConfigured then
    ("Slack not configured. Please ask me to setup slack and provide your user token.", [])
  else
    let statusPart := statusUpdatePart net status_text status_emoji presence expiration_minutes
    let presencePart := presenceUpdatePart net presence
    let results := statusPart.1 ++ presencePart.1
    let calls := statusPart.2 ++ presencePart.2
    if !results.isEmpty then (String.intercalate "\n" results, calls)
    else
      ("No changes requested. Specify status_text, status_emoji, presence, or expiration_minutes.",
       calls)

/-- A retained message built by the collection loop of
`_get_direct_and_group_messages` (src/main.py:626-632).  Timestamps are
Slack `ts` values (decimal fractions of seconds), modelled as rationals. -/
structure AggMsg where
  timestamp : Rat
  time_str : String
  sender : String
  text : String
  context : String
deriving Repr, DecidableEq

/-- The output line built for one message
(`f"[{msg['time_str']}] {msg['sender']}: {msg['text']}"`, src/main.py:649). -/
def fmtLine (m : AggMsg) : String :=
  "[" ++ m.time_str ++ "] " ++ m.sender ++ ": " ++ m.text

/-- The sort-and-truncate step of `_get_direct_and_group_messages`
(src/main.py:637-641): stable sort by timestamp, newest first, then keep the
first `limit` messages. -/
def mergeDirectGroup (all_messages : List AggMsg) (limit : Nat) : List AggMsg :=
  (all_messages.mergeSort (fun a b => decide (b.timestamp ≤ a.timestamp))).take limit

/-- One step of the context-grouping loop (src/main.py:644-649): append the
line to the first group with this context, or start a new group at the end
(Python dict insertion order). -/
def addToGroup : List (String × List String) → String → String → List (String × List String)
  | [], ctx, line => [(ctx, [line])]
  | (c, ls) :: rest, ctx, line =>
    if c == ctx then (c, ls ++ [line]) :: rest
    else (c, ls) :: addToGroup rest ctx line

/-- The `for msg in all_messages` grouping loop, with explicit accumulator. -/
def groupFold (acc : List (String × List String)) : List AggMsg → List (String × List String)
  | [] => acc
  | m :: rest => groupFold (addToGroup acc m.context (fmtLine m)) rest

/-- The context grouping of `_get_direct_and_group_messages`
(src/main.py:643-649), as an insertion-ordered mapping from context label to
formatted lines. -/
def groupByContext (msgs : List AggMsg) : List (String × List String) :=
  groupFold [] msgs

/-- One step of first-occurrence deduplication. -/
def fsStep (acc : List String) (c : String) : List String :=
  if acc.contains c then acc else acc ++ [c]

/-- The distinct elements of a list in order of first occurrence (the key
order of a Python dict filled by repeated `setdefault`-style insertion). -/
def firstSeen (l : List String) : List String :=
  l.foldl fsStep []

/-- Embedding of the tail of `_get_direct_and_group_messages`
(src/main.py:634-657): given the collected messages and the limit, `None` for
an empty collection, otherwise the formatted report built from the sorted,
truncated, context-grouped messages. -/
def get_direct_and_group_messages (all_messages : List AggMsg) (limit : Nat) : Option String :=
  if all_messages.isEmpty then none
  else
    let kept := mergeDirectGroup all_messages limit
    let groups := groupByContext kept
    some (String.intercalate "\n"
      (groups.flatMap (fun g => ("\n" ++ g.1 ++ ":") :: g.2)))

theorem findUser_eq_find (nl : String) (l : List UserRecord) :
    findUser nl l = (l.find? (fun u => matchesName u nl)).map (fun u => u.id) := by
  induction l with
  | nil => rfl
  | cons u rest ih =>
    by_cases h : matchesName u nl
    · simp [findUser, h]
    · simp [findUser, h, ih]

/-- C4: name resolution is case-insensitive (`resolve(q) = resolve(lowercase(q))`
for every query and every stored config), and it returns the id of the first
record any of whose four name fields (username, display name, real name,
first name) matches the lower-cased query exactly. -/
theorem resolver_case_insensitive_first_match :
    (∀ (cfg : Option Config) (q : String),
        get_slack_user cfg q = get_slack_user cfg q.toLower)
    ∧ (∀ (c : Config) (q : String),
        get_slack_user (some c) q =
          ((c.users.map (fun p => p.2)).find? (fun u => matchesName u q.toLower)).map
            (fun u => u.id)) := by
  constructor
  · intro cfg q
    cases cfg with
    | none => rfl
    | some c => simp [get_slack_user, ← pyLower_eq_toLower, pyLower_idem]
  · intro c q
    simp [get_slack_user, findUser_eq_find, ← pyLower_eq_toLower]

/-- C9: calling `send_message_to_user` with a configured client and an empty
name list returns the fixed validation error and performs no name resolution
and no network call at all (empty effect trace). -/
theorem send_user_empty_names (cfg : Option Config) (net : Net) (message : String) :
    send_message_to_user true cfg net [] message
      = ("Error: At least one user name must be provided", []) := rfl

/-- C10: when re-reading or parsing the config file fails (modelled by
`cfg = none`), `_get_slack_user` returns `None` rather than signalling a
configuration error, so `send_message_to_user` reports the queried name as
not found in config (with no network call made). -/
theorem resolver_config_read_failure (net : Net) (name message : String) :
    get_slack_user none name = none
    ∧ send_message_to_user true none net [name] message
        = ("Error: User " ++ squote ++ name ++ squote ++ " not found in config",
           [Effect.resolveName name]) := by
  refine ⟨rfl, ?_⟩
  simp [send_message_to_user, resolveUsers, get_slack_user]

/-- The concrete config of the end-to-end scenario: one user `andy` with id
`U1`, one channel `general` with id `C1`. -/
def scenarioConfig : Config :=
  { user_token := "tok",
    users := [("andy", { id := "U1", username := "andy", display_name := "",
                         real_name := "", first_name := "" })],
    channels := [("general", "C1")] }

/-- A network oracle whose calls all succeed; `conversations_open` returns
the group channel id `G1`. -/
def allOkNet : Net :=
  { postMessage := fun _ _ => .ok (), openConv := fun _ => .ok "G1" }

/-- C7: with `users = {andy: {id: U1}}` and `channels = {general: C1}`,
sending "hi" to channel "General" mentioning ["andy"] resolves the channel
name case-insensitively to `C1`, resolves the mention to `U1`, performs
exactly one network send of the text `<@U1> hi` to `C1`, and returns the
success string listing `andy` as mentioned. -/
theorem send_channel_scenario :
    send_message_to_channel true scenarioConfig allOkNet "General" "hi" ["andy"]
      = ("Message sent successfully to #general! (mentioning andy)",
         [Effect.resolveName "andy", Effect.postMessage "C1" "<@U1> hi"]) := by
  decide

/-- The `status_expiration` value the status sub-update actually sends
(src/main.py:289-307): clamp the minutes at 1440, convert a positive value to
`now + minutes*60`, and omit the field (`none`) otherwise. -/
def statusExpirationOf (net : StatusNet) (expiration_minutes : Int) : Option Int :=
  let em := if 1440 < expiration_minutes then 1440 else expiration_minutes
  let expiration : Int := if 0 < em then (net.now : Int) + em * 60 else 0
  if 0 < expiration then some expiration else none

theorem statusUpdatePart_snd (net : StatusNet) (t e p : String) (em : Int) :
    (statusUpdatePart net t e p em).2
      = if statusGate t e p em then
          [StatusCall.profileSet t e (statusExpirationOf net em)]
        else [] := by
  by_cases hg : statusGate t e p em
  · cases hr : net.profileSet t e (statusExpirationOf net em) with
    | ok u =>
      simp only [statusUpdatePart, statusExpirationOf] at hr ⊢
      rw [if_pos hg, if_pos hg, hr]
      rw [apply_ite Prod.snd, ite_self]
    | error err =>
      simp only [statusUpdatePart, statusExpirationOf] at hr ⊢
      rw [if_pos hg, if_pos hg, hr]
  · simp only [statusUpdatePart]
    rw [if_neg hg, if_neg hg]

theorem presenceUpdatePart_snd (net : StatusNet) (p : String) :
    (presenceUpdatePart net p).2
      = if !(p == "") then
          (if pyLower p == "online" || pyLower p == "auto" then [StatusCall.setPresence "auto"]
           else if pyLower p == "away" then [StatusCall.setPresence "away"]
           else [])
        else [] := by
  by_cases h1 : (p == "") = true
  · simp [presenceUpdatePart, h1]
  · by_cases h2 : (pyLower p == "online" || pyLower p == "auto") = true
    · cases hr : net.setPresence "auto" <;> simp [presenceUpdatePart, h1, h2, hr]
    · by_cases h3 : (pyLower p == "away") = true
      · cases hr : net.setPresence "away" <;> simp [presenceUpdatePart, h1, h2, h3, hr]
      · simp [presenceUpdatePart, h1, h2, h3]

theorem update_slack_status_snd (net : StatusNet) (t e p : String) (em : Int) :
    (update_slack_status true net t e p em).2
      = (statusUpdatePart net t e p em).2 ++ (presenceUpdatePart net p).2 := by
  unfold update_slack_status
  simp only [Bool.not_true, Bool.false_eq_true, if_false, apply_ite Prod.snd, ite_self]

/-- C5: status gating is asymmetric — with empty text, empty emoji, empty
presence and `expiration_minutes = 0` the tool makes no API call at all and
returns the fixed no-change response, whereas with empty text, empty emoji
and `presence = "away"` it issues a clearing `users_profile_set` (confirmed
as "Status cleared") in addition to the presence update (confirmed as
presence AWAY). -/
theorem status_gating (net : StatusNet) :
    update_slack_status true net "" "" "" 0
      = ("No changes requested. Specify status_text, status_emoji, presence, or expiration_minutes.",
         [])
    ∧ (net.profileSet "" "" none = .ok () → net.setPresence "away" = .ok () →
        update_slack_status true net "" "" "away" 0
          = ("✅ Status cleared\n✅ Presence set to AWAY (offline) - green dot hidden",
             [StatusCall.profileSet "" "" none, StatusCall.setPresence "away"])) := by
  constructor
  · rfl
  · intro h1 h2
    simp [update_slack_status, statusUpdatePart, presenceUpdatePart, statusGate, h1, h2,
      show pyLower "away" = "away" from by decide]
    rfl

/-- A status oracle whose remote calls all succeed and whose clock reads 0. -/
def constOkStatusNet : StatusNet :=
  { now := 0, profileSet := fun _ _ _ => .ok (), setPresence := fun _ => .ok () }

theorem status_gating_witness :
    update_slack_status true constOkStatusNet "" "" "away" 0
      = ("✅ Status cleared\n✅ Presence set to AWAY (offline) - green dot hidden",
         [StatusCall.profileSet "" "" none, StatusCall.setPresence "away"]) :=
  (status_gating constOkStatusNet).2 rfl rfl

/-- The clamp of `expiration_minutes` to the range [0, 1440]: values above
1440 are reduced to 1440 by the explicit cap (src/main.py:290-291) and
non-positive values behave exactly like 0 (no gate contribution, no
expiration sent). -/
def clampMinutes (em : Int) : Int := max 0 (min em 1440)

theorem statusUpdatePart_em_congr (net : StatusNet) (t e p : String) (em : Int) :
    statusUpdatePart net t e p em = statusUpdatePart net t e p (clampMinutes em) := by
  by_cases h1 : (1440 : Int) < em
  · have h2 : (0 : Int) < em := by omega
    have hc : clampMinutes em = 1440 := by unfold clampMinutes; omega
    rw [hc]
    simp [statusUpdatePart, statusGate, h1, h2]
  · by_cases h2 : (0 : Int) < em
    · have hc : clampMinutes em = em := by unfold clampMinutes; omega
      rw [hc]
    · have hc : clampMinutes em = 0 := by unfold clampMinutes; omega
      rw [hc]
      simp [statusUpdatePart, statusGate, h1, h2]

theorem statusExpirationOf_pos (net : StatusNet) (em : Int) (h : 0 < clampMinutes em) :
    statusExpirationOf net em = some ((net.now : Int) + clampMinutes em * 60) := by
  have h2 : (0 : Int) < em := by unfold clampMinutes at h; omega
  simp only [statusExpirationOf]
  by_cases h1 : (1440 : Int) < em
  · have hc : clampMinutes em = 1440 := by unfold clampMinutes; omega
    rw [hc, if_pos h1, if_pos (by omega : (0:Int) < 1440),
      if_pos (by omega : (0:Int) < (net.now : Int) + 1440 * 60)]
  · have hc : clampMinutes em = em := by unfold clampMinutes; omega
    rw [hc, if_neg h1, if_pos h2,
      if_pos (by omega : (0:Int) < (net.now : Int) + em * 60)]

theorem statusExpirationOf_zero (net : StatusNet) (em : Int) (h : clampMinutes em = 0) :
    statusExpirationOf net em = none := by
  have h2 : ¬ (0 : Int) < em := by unfold clampMinutes at h; omega
  have h1 : ¬ (1440 : Int) < em := by omega
  simp only [statusExpirationOf]
  rw [if_neg h1, if_neg h2]
  rw [if_neg (by omega : ¬ (0:Int) < 0)]

/-- C6: the expiration minutes are clamped to [0, 1440] — the whole call
behaves identically under `clampMinutes` (so 2000 behaves exactly like
1440); every positive clamped value is sent as the absolute expiry
`now + minutes*60` inside the single profile-update call; and a clamped
value of 0 sends no expiration field (every profile call in the trace
carries `none`). -/
theorem expiration_clamping (net : StatusNet) (text emoji presence : String) (em : Int) :
    update_slack_status true net text emoji presence em
      = update_slack_status true net text emoji presence (clampMinutes em)
    ∧ (0 < clampMinutes em →
        StatusCall.profileSet text emoji (some ((net.now : Int) + clampMinutes em * 60))
          ∈ (update_slack_status true net text emoji presence em).2)
    ∧ (clampMinutes em = 0 →
        ∀ x, StatusCall.profileSet text emoji x
            ∈ (update_slack_status true net text emoji presence em).2 → x = none) := by
  refine ⟨?_, ?_, ?_⟩
  · unfold update_slack_status
    rw [statusUpdatePart_em_congr]
  · intro h
    have h2 : (0 : Int) < em := by unfold clampMinutes at h; omega
    have hg : statusGate text emoji presence em = true := by
      simp [statusGate, h2]
    rw [update_slack_status_snd, statusUpdatePart_snd, hg, if_pos rfl,
      statusExpirationOf_pos net em h]
    exact List.mem_append_left _ (List.mem_singleton_self _)
  · intro h x hx
    rw [update_slack_status_snd, statusUpdatePart_snd,
      statusExpirationOf_zero net em h] at hx
    rcases List.mem_append.1 hx with hL | hR
    · by_cases hg : statusGate text emoji presence em = true
      · rw [if_pos hg] at hL
        simpa using hL
      · rw [if_neg hg] at hL
        simp at hL
    · rw [presenceUpdatePart_snd] at hR
      split_ifs at hR <;> simp at hR

theorem expiration_clamping_witness :
    update_slack_status true constOkStatusNet "x" "" "" 2000
      = update_slack_status true constOkStatusNet "x" "" "" (clampMinutes 2000)
    ∧ (0 < clampMinutes 2000 ∧
       StatusCall.profileSet "x" "" (some ((constOkStatusNet.now : Int) + clampMinutes 2000 * 60))
         ∈ (update_slack_status true constOkStatusNet "x" "" "" 2000).2) :=
  ⟨(expiration_clamping constOkStatusNet "x" "" "" 2000).1,
   by decide,
   (expiration_clamping constOkStatusNet "x" "" "" 2000).2.1 (by decide)⟩

theorem resolveUsers_effects (cfg : Option Config) (names : List String) :
    ∀ ef ∈ (resolveUsers cfg names).2, ef.isNetworkCall = false := by
  induction names with
  | nil => simp [resolveUsers]
  | cons n rest ih =>
    intro ef hef
    simp only [resolveUsers] at hef
    cases hg : get_slack_user cfg n with
    | none =>
      rw [hg] at hef
      simp at hef
      subst hef
      rfl
    | some uid =>
      rw [hg] at hef
      rcases hr : resolveUsers cfg rest with ⟨r, tr⟩
      rw [hr] at hef
      cases r with
      | error m =>
        rcases List.mem_cons.1 hef with h | h
        · subst h; rfl
        · exact ih ef (by rw [hr]; exact h)
      | ok ids =>
        rcases List.mem_cons.1 hef with h | h
        · subst h; rfl
        · exact ih ef (by rw [hr]; exact h)

theorem resolveUsers_error (cfg : Option Config) (names : List String) (b : String)
    (h : names.find? (fun n => (get_slack_user cfg n).isNone) = some b) :
    (resolveUsers cfg names).1 = .error b := by
  induction names with
  | nil => simp at h
  | cons n rest ih =>
    cases hg : get_slack_user cfg n with
    | none =>
      rw [List.find?_cons_of_pos _ (by simp [hg])] at h
      have hb : n = b := by simpa using h
      subst hb
      simp [resolveUsers, hg]
    | some uid =>
      rw [List.find?_cons_of_neg _ (by simp [hg])] at h
      have htail := ih h
      simp only [resolveUsers, hg]
      rcases hr : resolveUsers cfg rest with ⟨r, tr⟩
      rw [hr] at htail
      cases r with
      | error m =>
        simp at htail
        subst htail
        rfl
      | ok ids => simp at htail

theorem resolveMentions_effects (cfg : Config) (users : List String) :
    ∀ ef ∈ (resolveMentions cfg users).2, ef.isNetworkCall = false := by
  induction users with
  | nil => simp [resolveMentions]
  | cons u rest ih =>
    intro ef hef
    simp only [resolveMentions] at hef
    by_cases hg : (((get_slack_user (some cfg) u).getD "").isEmpty) = true
    · rw [if_pos hg] at hef
      simp at hef
      subst hef
      rfl
    · rw [if_neg hg] at hef
      rcases hr : resolveMentions cfg rest with ⟨r, tr⟩
      rw [hr] at hef
      cases r with
      | error m =>
        rcases List.mem_cons.1 hef with h | h
        · subst h; rfl
        · exact ih ef (by rw [hr]; exact h)
      | ok ms =>
        rcases List.mem_cons.1 hef with h | h
        · subst h; rfl
        · exact ih ef (by rw [hr]; exact h)

theorem resolveMentions_error (cfg : Config) (users : List String) (b : String)
    (h : users.find? (fun u => !(mentionResolvable cfg u)) = some b) :
    (resolveMentions cfg users).1 = .error b := by
  induction users with
  | nil => simp at h
  | cons u rest ih =>
    by_cases hg : (((get_slack_user (some cfg) u).getD "").isEmpty) = true
    · rw [List.find?_cons_of_pos _ (by simp [mentionResolvable, hg])] at h
      have hb : u = b := by simpa using h
      subst hb
      simp [resolveMentions, hg]
    · rw [List.find?_cons_of_neg _ (by simp [mentionResolvable, hg])] at h
      have htail := ih h
      simp only [resolveMentions]
      rw [if_neg hg]
      rcases hr : resolveMentions cfg rest with ⟨r, tr⟩
      rw [hr] at htail
      cases r with
      | error m =>
        simp at htail
        subst htail
        rfl
      | ok ms => simp at htail

theorem send_message_to_user_error_case (cfg : Option Config) (net : Net)
    (names : List String) (message : String) (b : String) (tr : List Effect)
    (hne : ¬ names.isEmpty = true)
    (hr : resolveUsers cfg names = (.error b, tr)) :
    send_message_to_user true cfg net names message
      = ("Error: User " ++ squote ++ b ++ squote ++ " not found in config", tr) := by
  simp only [send_message_to_user, Bool.not_true, Bool.false_eq_true, if_false]
  rw [if_neg hne, hr]

theorem send_message_to_channel_error_case (cfg : Config) (net : Net)
    (channel_name message : String) (users : List String) (cid : String)
    (b : String) (tr : List Effect)
    (hch : listLookup cfg.channels (pyLower channel_name) = some cid)
    (hne : ¬ users.isEmpty = true)
    (hr : resolveMentions cfg users = (.error b, tr)) :
    send_message_to_channel true cfg net channel_name message users
      = ("Error: User " ++ squote ++ b ++ squote ++ " not found in config", tr) := by
  simp only [send_message_to_channel, Bool.not_true, Bool.false_eq_true, if_false]
  rw [hch, if_neg hne, hr]

/-- C1: if any requested recipient of `send_message_to_user` fails to
resolve, the tool performs no network call at all (zero messages sent) and
returns the error string naming the first unresolved recipient; likewise any
unresolved mention in `send_message_to_channel` aborts the call before any
network send, with the error naming the first failing mention (given the
channel itself resolved).  All names are resolved before the first send. -/
theorem unresolved_name_aborts :
    (∀ (cfg : Option Config) (net : Net) (names : List String) (message : String),
      (∃ n ∈ names, get_slack_user cfg n = none) →
      ∃ b, names.find? (fun n => (get_slack_user cfg n).isNone) = some b
        ∧ get_slack_user cfg b = none
        ∧ (send_message_to_user true cfg net names message).1
            = "Error: User " ++ squote ++ b ++ squote ++ " not found in config"
        ∧ ∀ ef ∈ (send_message_to_user true cfg net names message).2,
            ef.isNetworkCall = false)
    ∧ (∀ (cfg : Config) (net : Net) (channel_name message : String) (users : List String),
      (∃ u ∈ users, get_slack_user (some cfg) u = none) →
      (∀ ef ∈ (send_message_to_channel true cfg net channel_name message users).2,
          ef.isNetworkCall = false)
      ∧ (∀ cid, listLookup cfg.channels (pyLower channel_name) = some cid →
          ∃ b, users.find? (fun u => !(mentionResolvable cfg u)) = some b
            ∧ (send_message_to_channel true cfg net channel_name message users).1
                = "Error: User " ++ squote ++ b ++ squote ++ " not found in config")) := by
  constructor
  · intro cfg net names message hex
    have hs : (names.find? (fun n => (get_slack_user cfg n).isNone)).isSome := by
      rw [List.find?_isSome]
      rcases hex with ⟨n, hn, hnone⟩
      exact ⟨n, hn, by simp [hnone]⟩
    rcases Option.isSome_iff_exists.1 hs with ⟨b, hb⟩
    have hne : ¬ names.isEmpty = true := by
      rcases hex with ⟨n, hn, _⟩
      intro hh
      rw [List.isEmpty_iff] at hh
      subst hh
      simp at hn
    rcases hrr : resolveUsers cfg names with ⟨r, tr⟩
    have h1 : r = Except.error b := by
      have h2 := resolveUsers_error cfg names b hb
      rw [hrr] at h2
      exact h2
    subst h1
    have heq := send_message_to_user_error_case cfg net names message b tr hne hrr
    refine ⟨b, hb, ?_, ?_, ?_⟩
    · have h3 := List.find?_some hb
      simpa using h3
    · rw [heq]
    · rw [heq]
      intro ef hef
      exact resolveUsers_effects cfg names ef (by rw [hrr]; exact hef)
  · intro cfg net channel_name message users hex
    have hs : (users.find? (fun u => !(mentionResolvable cfg u))).isSome := by
      rw [List.find?_isSome]
      rcases hex with ⟨u, hu, hnone⟩
      refine ⟨u, hu, ?_⟩
      simp [mentionResolvable, hnone]
      decide
    rcases Option.isSome_iff_exists.1 hs with ⟨b, hb⟩
    have hne : ¬ users.isEmpty = true := by
      rcases hex with ⟨u, hu, _⟩
      intro hh
      rw [List.isEmpty_iff] at hh
      subst hh
      simp at hu
    rcases hrr : resolveMentions cfg users with ⟨r, tr⟩
    have h1 : r = Except.error b := by
      have h2 := resolveMentions_error cfg users b hb
      rw [hrr] at h2
      exact h2
    subst h1
    constructor
    · intro ef hef
      cases hch : listLookup cfg.channels (pyLower channel_name) with
      | none =>
        have h0 : (send_message_to_channel true cfg net channel_name message users).2 = [] := by
          simp only [send_message_to_channel, Bool.not_true, Bool.false_eq_true, if_false]
          rw [hch]
        rw [h0] at hef
        simp at hef
      | some cid =>
        have heq := send_message_to_channel_error_case cfg net channel_name message users
          cid b tr hch hne hrr
        rw [heq] at hef
        exact resolveMentions_effects cfg users ef (by rw [hrr]; exact hef)
    · intro cid hch
      have heq := send_message_to_channel_error_case cfg net channel_name message users
        cid b tr hch hne hrr
      exact ⟨b, hb, by rw [heq]⟩

theorem unresolved_name_aborts_witness :
    (∃ b, ["bob"].find? (fun n => (get_slack_user (some scenarioConfig) n).isNone) = some b
      ∧ get_slack_user (some scenarioConfig) b = none
      ∧ (send_message_to_user true (some scenarioConfig) allOkNet ["bob"] "hi").1
          = "Error: User " ++ squote ++ "bob" ++ squote ++ " not found in config"
      ∧ ∀ ef ∈ (send_message_to_user true (some scenarioConfig) allOkNet ["bob"] "hi").2,
          ef.isNetworkCall = false)
    ∧ (∀ ef ∈ (send_message_to_channel true scenarioConfig allOkNet "general" "hi" ["bob"]).2,
        ef.isNetworkCall = false) := by
  constructor
  · have h := unresolved_name_aborts.1 (some scenarioConfig) allOkNet ["bob"] "hi"
      ⟨"bob", by decide, by decide⟩
    rcases h with ⟨b, hb, h2, h3, h4⟩
    have hbeq : b = "bob" := by
      rw [show ["bob"].find? (fun n => (get_slack_user (some scenarioConfig) n).isNone)
          = some "bob" from by decide] at hb
      simpa using hb.symm
    subst hbeq
    exact ⟨"bob", hb, h2, h3, h4⟩
  · exact (unresolved_name_aborts.2 scenarioConfig allOkNet "general" "hi" ["bob"]
      ⟨"bob", by decide, by decide⟩).1

theorem listLookup_append_of_some {α : Type} (l l' : List (String × α)) (k : String) (v : α)
    (h : listLookup l k = some v) : listLookup (l ++ l') k = some v := by
  simp only [listLookup, List.find?_append]
  simp only [listLookup] at h
  cases hf : l.find? (fun p => p.1 == k) with
  | none => rw [hf] at h; simp at h
  | some p => rw [hf] at h; simp [Option.or]; simpa using h

theorem syncUsersMerge_preserves (members : List Member) (users : List (String × UserRecord))
    (count : Nat) (k : String) (v : UserRecord) (h : listLookup users k = some v) :
    listLookup (syncUsersMerge users count members).1 k = some v := by
  induction members generalizing users count with
  | nil => exact h
  | cons m rest ih =>
    simp only [syncUsersMerge]
    by_cases he : memberEligible m = true
    · rw [if_pos he]
      by_cases hp : (listLookup users (pyLower m.name)).isNone = true
      · rw [if_pos hp]
        exact ih _ _ (listLookup_append_of_some _ _ _ _ h)
      · rw [if_neg hp]
        exact ih _ _ h
    · rw [if_neg he]
      exact ih _ _ h

theorem syncUsersMerge_count_le (members : List Member) (users : List (String × UserRecord))
    (count : Nat) : count ≤ (syncUsersMerge users count members).2 := by
  induction members generalizing users count with
  | nil => exact Nat.le_refl _
  | cons m rest ih =>
    simp only [syncUsersMerge]
    by_cases he : memberEligible m = true
    · rw [if_pos he]
      by_cases hp : (listLookup users (pyLower m.name)).isNone = true
      · rw [if_pos hp]
        exact Nat.le_trans (Nat.le_succ _) (ih _ _)
      · rw [if_neg hp]
        exact ih _ _
    · rw [if_neg he]
      exact ih _ _

theorem syncUsersMerge_count_eq_iff (members : List Member) (users : List (String × UserRecord))
    (count : Nat) :
    (syncUsersMerge users count members).2 = count ↔
      ∀ m ∈ members, memberEligible m = true →
        (listLookup users (pyLower m.name)).isSome := by
  induction members generalizing users count with
  | nil => simp [syncUsersMerge]
  | cons m rest ih =>
    simp only [syncUsersMerge]
    by_cases he : memberEligible m = true
    · rw [if_pos he]
      by_cases hp : (listLookup users (pyLower m.name)).isNone = true
      · rw [if_pos hp]
        constructor
        · intro hc
          have := syncUsersMerge_count_le rest (users ++ [(pyLower m.name, memberRecord m)])
            (count + 1)
          omega
        · intro hall
          have := hall m (List.mem_cons_self m rest) he
          rw [Option.isNone_iff_eq_none] at hp
          rw [hp] at this
          simp at this
      · rw [if_neg hp]
        rw [ih]
        constructor
        · intro hall
          intro x hx hex
          rcases List.mem_cons.1 hx with hh | hh
          · subst hh
            cases ho : listLookup users (pyLower x.name) with
            | none => rw [ho] at hp; simp at hp
            | some v => rfl
          · exact hall x hh hex
        · intro hall x hx hex
          exact hall x (List.mem_cons_of_mem m hx) hex
    · rw [if_neg he]
      rw [ih]
      constructor
      · intro hall x hx hex
        rcases List.mem_cons.1 hx with hh | hh
        · subst hh; exact absurd hex he
        · exact hall x hh hex
      · intro hall x hx hex
        exact hall x (List.mem_cons_of_mem m hx) hex

theorem syncUsersMerge_noop (members : List Member) (users : List (String × UserRecord))
    (count : Nat)
    (hall : ∀ m ∈ members, memberEligible m = true →
      (listLookup users (pyLower m.name)).isSome) :
    syncUsersMerge users count members = (users, count) := by
  induction members generalizing count with
  | nil => rfl
  | cons m rest ih =>
    simp only [syncUsersMerge]
    by_cases he : memberEligible m = true
    · rw [if_pos he]
      have hp := hall m (List.mem_cons_self m rest) he
      rw [if_neg (by simp only [Option.isNone_iff_eq_none]; intro hc; rw [hc] at hp; simp at hp)]
      exact ih count (fun x hx hex => hall x (List.mem_cons_of_mem m hx) hex)
    · rw [if_neg he]
      exact ih count (fun x hx hex => hall x (List.mem_cons_of_mem m hx) hex)

theorem syncUsersMerge_all_present (members : List Member)
    (users : List (String × UserRecord)) (count : Nat) :
    ∀ m ∈ members, memberEligible m = true →
      (listLookup (syncUsersMerge users count members).1 (pyLower m.name)).isSome := by
  induction members generalizing users count with
  | nil => intro m hm; simp at hm
  | cons m rest ih =>
    intro x hx hex
    simp only [syncUsersMerge]
    by_cases he : memberEligible m = true
    · rw [if_pos he]
      by_cases hp : (listLookup users (pyLower m.name)).isNone = true
      · rw [if_pos hp]
        rcases List.mem_cons.1 hx with hh | hh
        · subst hh
          have hins : listLookup (users ++ [(pyLower x.name, memberRecord x)])
              (pyLower x.name) = some (memberRecord x) := by
            simp only [listLookup, List.find?_append]
            rw [Option.isNone_iff_eq_none] at hp
            simp only [listLookup] at hp
            cases hf : users.find? (fun p => p.1 == pyLower x.name) with
            | none => simp [Option.or, List.find?]
            | some p => rw [hf] at hp; simp at hp
          rw [syncUsersMerge_preserves rest _ _ _ _ hins]
          rfl
        · exact ih _ _ x hh hex
      · rw [if_neg hp]
        rcases List.mem_cons.1 hx with hh | hh
        · subst hh
          cases ho : listLookup users (pyLower x.name) with
          | none => rw [ho] at hp; simp at hp
          | some v =>
            rw [syncUsersMerge_preserves rest _ _ _ _ ho]
            rfl
        · exact ih _ _ x hh hex
    · rw [if_neg he]
      rcases List.mem_cons.1 hx with hh | hh
      · subst hh; exact absurd hex he
      · exact ih _ _ x hh hex

theorem syncChannelsMerge_preserves (chans : List ChannelInfo)
    (channels : List (String × String)) (count : Nat) (k : String) (v : String)
    (h : listLookup channels k = some v) :
    listLookup (syncChannelsMerge channels count chans).1 k = some v := by
  induction chans generalizing channels count with
  | nil => exact h
  | cons c rest ih =>
    simp only [syncChannelsMerge]
    by_cases he : channelEligible c = true
    · rw [if_pos he]
      by_cases hp : (listLookup channels (pyLower c.name)).isNone = true
      · rw [if_pos hp]
        exact ih _ _ (listLookup_append_of_some _ _ _ _ h)
      · rw [if_neg hp]
        exact ih _ _ h
    · rw [if_neg he]
      exact ih _ _ h

theorem syncChannelsMerge_count_le (chans : List ChannelInfo)
    (channels : List (String × String)) (count : Nat) :
    count ≤ (syncChannelsMerge channels count chans).2 := by
  induction chans generalizing channels count with
  | nil => exact Nat.le_refl _
  | cons c rest ih =>
    simp only [syncChannelsMerge]
    by_cases he : channelEligible c = true
    · rw [if_pos he]
      by_cases hp : (listLookup channels (pyLower c.name)).isNone = true
      · rw [if_pos hp]
        exact Nat.le_trans (Nat.le_succ _) (ih _ _)
      · rw [if_neg hp]
        exact ih _ _
    · rw [if_neg he]
      exact ih _ _

theorem syncChannelsMerge_count_eq_iff (chans : List ChannelInfo)
    (channels : List (String × String)) (count : Nat) :
    (syncChannelsMerge channels count chans).2 = count ↔
      ∀ c ∈ chans, channelEligible c = true →
        (listLookup channels (pyLower c.name)).isSome := by
  induction chans generalizing channels count with
  | nil => simp [syncChannelsMerge]
  | cons c rest ih =>
    simp only [syncChannelsMerge]
    by_cases he : channelEligible c = true
    · rw [if_pos he]
      by_cases hp : (listLookup channels (pyLower c.name)).isNone = true
      · rw [if_pos hp]
        constructor
        · intro hc
          have := syncChannelsMerge_count_le rest
            (channels ++ [(pyLower c.name, c.id)]) (count + 1)
          omega
        · intro hall
          have := hall c (List.mem_cons_self c rest) he
          rw [Option.isNone_iff_eq_none] at hp
          rw [hp] at this
          simp at this
      · rw [if_neg hp]
        rw [ih]
        constructor
        · intro hall x hx hex
          rcases List.mem_cons.1 hx with hh | hh
          · subst hh
            cases ho : listLookup channels (pyLower x.name) with
            | none => rw [ho] at hp; simp at hp
            | some v => rfl
          · exact hall x hh hex
        · intro hall x hx hex
          exact hall x (List.mem_cons_of_mem c hx) hex
    · rw [if_neg he]
      rw [ih]
      constructor
      · intro hall x hx hex
        rcases List.mem_cons.1 hx with hh | hh
        · subst hh; exact absurd hex he
        · exact hall x hh hex
      · intro hall x hx hex
        exact hall x (List.mem_cons_of_mem c hx) hex

theorem syncChannelsMerge_noop (chans : List ChannelInfo)
    (channels : List (String × String)) (count : Nat)
    (hall : ∀ c ∈ chans, channelEligible c = true →
      (listLookup channels (pyLower c.name)).isSome) :
    syncChannelsMerge channels count chans = (channels, count) := by
  induction chans generalizing count with
  | nil => rfl
  | cons c rest ih =>
    simp only [syncChannelsMerge]
    by_cases he : channelEligible c = true
    · rw [if_pos he]
      have hp := hall c (List.mem_cons_self c rest) he
      rw [if_neg (by simp only [Option.isNone_iff_eq_none]; intro hc; rw [hc] at hp; simp at hp)]
      exact ih count (fun x hx hex => hall x (List.mem_cons_of_mem c hx) hex)
    · rw [if_neg he]
      exact ih count (fun x hx hex => hall x (List.mem_cons_of_mem c hx) hex)

theorem syncChannelsMerge_all_present (chans : List ChannelInfo)
    (channels : List (String × String)) (count : Nat) :
    ∀ c ∈ chans, channelEligible c = true →
      (listLookup (syncChannelsMerge channels count chans).1 (pyLower c.name)).isSome := by
  induction chans generalizing channels count with
  | nil => intro c hc; simp at hc
  | cons c rest ih =>
    intro x hx hex
    simp only [syncChannelsMerge]
    by_cases he : channelEligible c = true
    · rw [if_pos he]
      by_cases hp : (listLookup channels (pyLower c.name)).isNone = true
      · rw [if_pos hp]
        rcases List.mem_cons.1 hx with hh | hh
        · subst hh
          have hins : listLookup (channels ++ [(pyLower x.name, x.id)])
              (pyLower x.name) = some x.id := by
            simp only [listLookup, List.find?_append]
            rw [Option.isNone_iff_eq_none] at hp
            simp only [listLookup] at hp
            cases hf : channels.find? (fun p => p.1 == pyLower x.name) with
            | none => simp [Option.or, List.find?]
            | some p => rw [hf] at hp; simp at hp
          rw [syncChannelsMerge_preserves rest _ _ _ _ hins]
          rfl
        · exact ih _ _ x hh hex
      · rw [if_neg hp]
        rcases List.mem_cons.1 hx with hh | hh
        · subst hh
          cases ho : listLookup channels (pyLower x.name) with
          | none => rw [ho] at hp; simp at hp
          | some v =>
            rw [syncChannelsMerge_preserves rest _ _ _ _ ho]
            rfl
        · exact ih _ _ x hh hex
    · rw [if_neg he]
      rcases List.mem_cons.1 hx with hh | hh
      · subst hh; exact absurd hex he
      · exact ih _ _ x hh hex

/-- C3: directory sync is additive-only and idempotent — a sync run never
changes the value stored under any existing key (users or channels; inserts
happen only for absent lower-cased keys), and a second run against the same
upstream listing changes nothing and adds 0 entries. -/
theorem sync_additive_idempotent :
    (∀ (users : List (String × UserRecord)) (members : List Member) (k : String)
        (v : UserRecord), listLookup users k = some v →
        listLookup (syncUsersMerge users 0 members).1 k = some v)
    ∧ (∀ (users : List (String × UserRecord)) (members : List Member),
        syncUsersMerge (syncUsersMerge users 0 members).1 0 members
          = ((syncUsersMerge users 0 members).1, 0))
    ∧ (∀ (channels : List (String × String)) (chans : List ChannelInfo) (k v : String),
        listLookup channels k = some v →
        listLookup (syncChannelsMerge channels 0 chans).1 k = some v)
    ∧ (∀ (channels : List (String × String)) (chans : List ChannelInfo),
        syncChannelsMerge (syncChannelsMerge channels 0 chans).1 0 chans
          = ((syncChannelsMerge channels 0 chans).1, 0)) := by
  refine ⟨?_, ?_, ?_, ?_⟩
  · intro users members k v h
    exact syncUsersMerge_preserves members users 0 k v h
  · intro users members
    exact syncUsersMerge_noop members _ 0 (syncUsersMerge_all_present members users 0)
  · intro channels chans k v h
    exact syncChannelsMerge_preserves chans channels 0 k v h
  · intro channels chans
    exact syncChannelsMerge_noop chans _ 0 (syncChannelsMerge_all_present chans channels 0)

/-- An upstream listing entry whose lower-cased username collides with the
`andy` key already stored in `scenarioConfig`, but with different field
values. -/
def upstreamAndy : Member :=
  { is_bot := false, deleted := false, name := "Andy", id := "U9",
    display_name := "Andy B", real_name := "Andy Bennett", first_name := "Andy" }

theorem sync_additive_idempotent_witness :
    listLookup (syncUsersMerge scenarioConfig.users 0 [upstreamAndy]).1 "andy"
      = some { id := "U1", username := "andy", display_name := "",
               real_name := "", first_name := "" } :=
  sync_additive_idempotent.1 scenarioConfig.users [upstreamAndy] "andy" _ (by decide)

/-- C8: a sync run writes the config file back to disk iff it added at least
one new entry — equivalently, iff some eligible upstream member (resp.
channel) has a lower-cased key absent from the stored mapping; when nothing
new was added, the on-disk config is left exactly unchanged. -/
theorem sync_writes_iff_new :
    (∀ (disk : Config) (members : List Member),
      ((get_user_ids disk members).2.2 = true ↔
        ∃ m ∈ members, memberEligible m = true ∧
          listLookup disk.users (pyLower m.name) = none)
      ∧ ((get_user_ids disk members).2.2 = false →
          (get_user_ids disk members).2.1 = disk))
    ∧ (∀ (disk : Config) (chans : List ChannelInfo),
      ((get_channel_ids disk chans).2.2 = true ↔
        ∃ c ∈ chans, channelEligible c = true ∧
          listLookup disk.channels (pyLower c.name) = none)
      ∧ ((get_channel_ids disk chans).2.2 = false →
          (get_channel_ids disk chans).2.1 = disk)) := by
  constructor
  · intro disk members
    constructor
    · simp only [get_user_ids, decide_eq_true_eq]
      constructor
      · intro h
        have hne : ¬ (syncUsersMerge disk.users 0 members).2 = 0 := by omega
        rw [syncUsersMerge_count_eq_iff] at hne
        push_neg at hne
        rcases hne with ⟨m, hm, hel, hns⟩
        exact ⟨m, hm, hel, Option.not_isSome_iff_eq_none.1 (by simpa using hns)⟩
      · intro h
        rcases h with ⟨m, hm, hel, hnone⟩
        have hne : ¬ (syncUsersMerge disk.users 0 members).2 = 0 := by
          rw [syncUsersMerge_count_eq_iff]
          intro hall
          have := hall m hm hel
          rw [hnone] at this
          simp at this
        have := syncUsersMerge_count_le members disk.users 0
        omega
    · intro h
      simp only [get_user_ids, decide_eq_false_iff_not] at h
      simp only [get_user_ids]
      rw [if_neg h]
  · intro disk chans
    constructor
    · simp only [get_channel_ids, decide_eq_true_eq]
      constructor
      · intro h
        have hne : ¬ (syncChannelsMerge disk.channels 0 chans).2 = 0 := by omega
        rw [syncChannelsMerge_count_eq_iff] at hne
        push_neg at hne
        rcases hne with ⟨c, hc, hel, hns⟩
        exact ⟨c, hc, hel, Option.not_isSome_iff_eq_none.1 (by simpa using hns)⟩
      · intro h
        rcases h with ⟨c, hc, hel, hnone⟩
        have hne : ¬ (syncChannelsMerge disk.channels 0 chans).2 = 0 := by
          rw [syncChannelsMerge_count_eq_iff]
          intro hall
          have := hall c hc hel
          rw [hnone] at this
          simp at this
        have := syncChannelsMerge_count_le chans disk.channels 0
        omega
    · intro h
      simp only [get_channel_ids, decide_eq_false_iff_not] at h
      simp only [get_channel_ids]
      rw [if_neg h]

theorem sync_writes_iff_new_witness :
    (get_user_ids scenarioConfig [upstreamAndy]).2.2 = false
    ∧ (get_user_ids scenarioConfig [upstreamAndy]).2.1 = scenarioConfig :=
  ⟨by decide, (sync_writes_iff_new.1 scenarioConfig [upstreamAndy]).2 (by decide)⟩

/-- Specification view of the grouping: the contexts in first-seen order,
each paired with the formatted lines of its messages in order. -/
def groupsSpec (msgs : List AggMsg) : List (String × List String) :=
  (firstSeen (msgs.map (fun m => m.context))).map
    (fun c => (c, (msgs.filter (fun m => m.context == c)).map fmtLine))

theorem fsStep_mem (acc : List String) (c x : String) :
    x ∈ fsStep acc c ↔ x ∈ acc ∨ x = c := by
  unfold fsStep
  by_cases h : acc.contains c = true
  · rw [if_pos h]
    constructor
    · exact Or.inl
    · rintro (hx | rfl)
      · exact hx
      · exact List.elem_iff.1 h
  · rw [if_neg h]
    simp

theorem fsStep_nodup (acc : List String) (c : String) (h : acc.Nodup) :
    (fsStep acc c).Nodup := by
  unfold fsStep
  by_cases hc : acc.contains c = true
  · rw [if_pos hc]; exact h
  · rw [if_neg hc]
    rw [List.nodup_append]
    refine ⟨h, List.nodup_singleton c, ?_⟩
    intro a ha hb
    rcases List.mem_singleton.1 hb with rfl
    exact hc (List.elem_iff.2 ha)

theorem foldl_fsStep_mem (l : List String) (acc : List String) (x : String) :
    x ∈ l.foldl fsStep acc ↔ x ∈ acc ∨ x ∈ l := by
  induction l generalizing acc with
  | nil => simp
  | cons c t ih =>
    simp only [List.foldl_cons]
    rw [ih, fsStep_mem]
    constructor
    · rintro ((hx | rfl) | hx)
      · exact Or.inl hx
      · exact Or.inr (List.mem_cons_self _ _)
      · exact Or.inr (List.mem_cons_of_mem _ hx)
    · rintro (hx | hx)
      · exact Or.inl (Or.inl hx)
      · rcases List.mem_cons.1 hx with rfl | hx
        · exact Or.inl (Or.inr rfl)
        · exact Or.inr hx

theorem firstSeen_mem (l : List String) (x : String) :
    x ∈ firstSeen l ↔ x ∈ l := by
  unfold firstSeen
  rw [foldl_fsStep_mem]
  simp

theorem firstSeen_nodup (l : List String) : (firstSeen l).Nodup := by
  unfold firstSeen
  suffices h : ∀ acc : List String, acc.Nodup → (l.foldl fsStep acc).Nodup from
    h [] List.nodup_nil
  induction l with
  | nil => intro acc h; exact h
  | cons c t ih =>
    intro acc h
    exact ih _ (fsStep_nodup acc c h)

theorem firstSeen_concat (l : List String) (c : String) :
    firstSeen (l ++ [c]) = fsStep (firstSeen l) c := by
  unfold firstSeen
  rw [List.foldl_append]
  rfl

theorem addToGroup_spec (ks : List String) (v : String → List String) (c line : String)
    (hnd : ks.Nodup) :
    addToGroup (ks.map (fun k => (k, v k))) c line
      = if c ∈ ks then
          ks.map (fun k => (k, if k = c then v k ++ [line] else v k))
        else
          ks.map (fun k => (k, v k)) ++ [(c, [line])] := by
  induction ks with
  | nil => simp [addToGroup]
  | cons k t ih =>
    rw [List.nodup_cons] at hnd
    obtain ⟨hk, hndt⟩ := hnd
    simp only [List.map_cons, addToGroup]
    by_cases hkc : k = c
    · subst hkc
      rw [if_pos (by simp), if_pos (List.mem_cons_self k t)]
      simp only [List.map_cons, if_pos rfl]
      congr 1
      apply List.map_congr_left
      intro a ha
      rw [if_neg]
      intro h
      subst h
      exact hk ha
    · rw [if_neg (by simpa using hkc)]
      rw [ih hndt]
      by_cases hct : c ∈ t
      · rw [if_pos hct, if_pos (List.mem_cons_of_mem k hct)]
        rw [if_neg hkc]
      · rw [if_neg hct, if_neg (by
          intro h
          rcases List.mem_cons.1 h with h' | h'
          · exact hkc h'.symm
          · exact hct h')]
        simp

theorem addToGroup_groupsSpec (l : List AggMsg) (m : AggMsg) :
    addToGroup (groupsSpec l) m.context (fmtLine m) = groupsSpec (l ++ [m]) := by
  simp only [groupsSpec, List.map_append, List.map_cons, List.map_nil, firstSeen_concat,
    List.filter_append]
  rw [addToGroup_spec _ _ _ _ (firstSeen_nodup _)]
  by_cases hc : m.context ∈ firstSeen (List.map (fun x => x.context) l)
  · rw [if_pos hc]
    unfold fsStep
    rw [if_pos (List.elem_iff.2 hc)]
    apply List.map_congr_left
    intro k hk
    by_cases hkc : k = m.context
    · subst hkc
      simp [List.filter_cons]
    · simp only [List.filter_cons]
      rw [if_neg hkc]
      rw [if_neg (by simpa using fun h => hkc h.symm)]
      simp
  · rw [if_neg hc]
    unfold fsStep
    rw [if_neg (fun h => hc (List.elem_iff.1 h))]
    rw [List.map_append]
    congr 1
    · apply List.map_congr_left
      intro k hk
      have hkc : ¬ m.context = k := fun h => hc (h ▸ hk)
      simp only [List.filter_cons]
      rw [if_neg (by simpa using hkc)]
      simp
    · simp only [List.map_cons, List.map_nil, List.filter_cons]
      have hf : l.filter (fun x => x.context == m.context) = [] := by
        rw [List.filter_eq_nil_iff]
        intro a ha hpa
        apply hc
        rw [firstSeen_mem]
        have hac : a.context = m.context := by simpa using hpa
        rw [← hac]
        exact List.mem_map_of_mem _ ha
      rw [hf]
      simp

theorem groupFold_groupsSpec (msgs : List AggMsg) (l : List AggMsg) :
    groupFold (groupsSpec l) msgs = groupsSpec (l ++ msgs) := by
  induction msgs generalizing l with
  | nil => rw [List.append_nil]; rfl
  | cons m rest ih =>
    simp only [groupFold]
    rw [addToGroup_groupsSpec, ih (l ++ [m]), List.append_assoc, List.singleton_append]

theorem groupByContext_eq_groupsSpec (msgs : List AggMsg) :
    groupByContext msgs = groupsSpec msgs := by
  have h := groupFold_groupsSpec msgs []
  simpa [groupByContext, groupsSpec, firstSeen] using h

/-- C2: for every collected candidate list and limit, the direct/group
section keeps the globally timestamp-descending sorted candidates truncated
to exactly `min limit candidates` messages (every kept message at least as
recent as every discarded one), and the kept messages are then grouped by
context label in first-seen context order, each group holding exactly the
formatted lines of its messages in order (`groupsSpec`). -/
theorem aggregator_merge_policy (all_messages : List AggMsg) (limit : Nat) :
    (mergeDirectGroup all_messages limit).length = min limit all_messages.length
    ∧ (mergeDirectGroup all_messages limit).Pairwise
        (fun a b => b.timestamp ≤ a.timestamp)
    ∧ (∃ rest, all_messages.Perm (mergeDirectGroup all_messages limit ++ rest)
        ∧ ∀ a ∈ mergeDirectGroup all_messages limit, ∀ b ∈ rest,
            b.timestamp ≤ a.timestamp)
    ∧ groupByContext (mergeDirectGroup all_messages limit)
        = groupsSpec (mergeDirectGroup all_messages limit) := by
  have htrans : ∀ (a b c : AggMsg),
      (fun a b : AggMsg => decide (b.timestamp ≤ a.timestamp)) a b = true →
      (fun a b : AggMsg => decide (b.timestamp ≤ a.timestamp)) b c = true →
      (fun a b : AggMsg => decide (b.timestamp ≤ a.timestamp)) a c = true := by
    intro a b c hab hbc
    simp only [decide_eq_true_eq] at hab hbc ⊢
    exact le_trans hbc hab
  have htotal : ∀ (a b : AggMsg),
      ((fun a b : AggMsg => decide (b.timestamp ≤ a.timestamp)) a b ||
       (fun a b : AggMsg => decide (b.timestamp ≤ a.timestamp)) b a) = true := by
    intro a b
    rcases le_total a.timestamp b.timestamp with h | h <;> simp [h]
  have hsorted := List.sorted_mergeSort htrans htotal all_messages
  have hperm := List.mergeSort_perm all_messages
    (fun a b : AggMsg => decide (b.timestamp ≤ a.timestamp))
  refine ⟨?_, ?_, ?_, ?_⟩
  · simp [mergeDirectGroup]
  · have h2 := List.Pairwise.sublist (List.take_sublist limit _) hsorted
    exact h2.imp (fun h => by simpa using h)
  · refine ⟨(all_messages.mergeSort
      (fun a b : AggMsg => decide (b.timestamp ≤ a.timestamp))).drop limit, ?_, ?_⟩
    · have : mergeDirectGroup all_messages limit ++
          (all_messages.mergeSort
            (fun a b : AggMsg => decide (b.timestamp ≤ a.timestamp))).drop limit
          = all_messages.mergeSort
              (fun a b : AggMsg => decide (b.timestamp ≤ a.timestamp)) := by
        simp [mergeDirectGroup]
      rw [this]
      exact hperm.symm
    · intro a ha b hb
      have hx := hsorted
      rw [← List.take_append_drop limit (all_messages.mergeSort
        (fun a b : AggMsg => decide (b.timestamp ≤ a.timestamp)))] at hx
      rcases List.pairwise_append.1 hx with ⟨_, _, hcross⟩
      have := hcross a (by simpa [mergeDirectGroup] using ha) b hb
      simpa using this
  · exact groupByContext_eq_groupsSpec _

/-- Eight candidate messages across three contexts, as in the spec's
`limit=5 with 8 candidates` example. -/
def sampleMessages : List AggMsg :=
  [ { timestamp := 1, time_str := "10:00:01", sender := "a", text := "m1", context := "Direct Message" },
    { timestamp := 5, time_str := "10:00:05", sender := "b", text := "m5", context := "Group: [a, b]" },
    { timestamp := 3, time_str := "10:00:03", sender := "a", text := "m3", context := "Direct Message" },
    { timestamp := 8, time_str := "10:00:08", sender := "c", text := "m8", context := "Private Channel: #x" },
    { timestamp := 2, time_str := "10:00:02", sender := "b", text := "m2", context := "Group: [a, b]" },
    { timestamp := 7, time_str := "10:00:07", sender := "a", text := "m7", context := "Direct Message" },
    { timestamp := 4, time_str := "10:00:04", sender := "c", text := "m4", context := "Private Channel: #x" },
    { timestamp := 6, time_str := "10:00:06", sender := "a", text := "m6", context := "Direct Message" } ]

theorem aggregator_merge_policy_witness :
    (mergeDirectGroup sampleMessages 5).length = min 5 sampleMessages.length
    ∧ groupByContext (mergeDirectGroup sampleMessages 5)
        = groupsSpec (mergeDirectGroup sampleMessages 5) :=
  ⟨(aggregator_merge_policy sampleMessages 5).1,
   (aggregator_merge_policy sampleMessages 5).2.2.2⟩
